import Mathlib

/-!
Shallow embedding of the core of the `codex` repository (TypeScript sources
under `codex-cli/`), covering:

* the read-only capability filter and the HTTP session gateway
  (`examples/http-server` server module, embedded in `demo.sh`);
* the model availability check (`src/utils/model-utils.ts`);
* the user-input item builder (`createInputItem` in `model-utils.ts`);
* the Vertex AI provider adapter: message flattening and the stream
  adapter's chunk-delivery/abort semantics
  (`src/utils/agent/vertex-ai-client.ts`).

Machine integers do not occur in the modelled code; strings are Lean
`String`s, JavaScript `undefined`/`null` fields are `Option`s, and JS
objects become structures.  Stateful pieces (the session registry, the Node
`Readable` used by the stream adapter) are modelled by explicit state
passing / a step function on a state type.
-/

/-! ## Data model: uniform chat messages (demo.sh server module, vertex-ai-client.ts) -/

/-- One function tool call payload: `{ name, arguments }` where `arguments`
is a JSON-encoded string (`ToolCall.function` in the TS sources). -/
structure ToolCallFunction where
  name : String
  arguments : String
deriving DecidableEq, Repr

/-- Shape `ToolCall`: `{ id, type, function }` as used by the server module and the
stream adapter. -/
structure ToolCall where
  id : String
  type : String
  function : ToolCallFunction
deriving DecidableEq, Repr

/-- One content part of a structured message content array, the TS shape
`{type: string; text?: string}` (plus the `image_url` variant built by
`createInputItem`).  A missing `text`/`image_url` field is `none`. -/
structure ContentPart where
  type : String
  text : Option String := none
  image_url : Option String := none
deriving DecidableEq, Repr

/-- Message `content`: a plain string, an array of parts, or JS
`null`/`undefined` (the TS code guards with `typeof … === "string"` and
`Array.isArray`). -/
inductive MessageContent where
  | str (s : String)
  | parts (l : List ContentPart)
  | nullContent
deriving DecidableEq, Repr

/-- Uniform chat message (`ChatCompletionMessageParam` as consumed by the
server module).  `tool_calls := none` models both an absent field and an
explicit `undefined` (the TS code only tests truthiness and
`JSON.stringify` drops both). -/
structure ChatMessage where
  role : String
  content : MessageContent
  tool_calls : Option (List ToolCall) := none
  tool_call_id : Option String := none
deriving DecidableEq, Repr

/-! ## Capability filter (demo.sh server module, lines 88–158) -/

/-- Constant `READ_ONLY_TOOLS` — read-capability tool names (demo.sh lines 88–97).
The TS `Set` is modelled as a list queried with `contains`. -/
def READ_ONLY_TOOLS : List String :=
  ["Read", "Glob", "Grep", "LS", "NotebookRead", "WebFetch", "WebSearch", "TodoRead"]

/-- Constant `WRITE_TOOLS` — write-capability tool names (demo.sh lines 100–108). -/
def WRITE_TOOLS : List String :=
  ["Edit", "MultiEdit", "Write", "NotebookEdit", "Bash", "TodoWrite", "Task"]

/-- Predicate `isReadOnlyToolCall` (demo.sh lines 110–113). -/
def isReadOnlyToolCall (toolCall : ToolCall) : Bool :=
  READ_ONLY_TOOLS.contains toolCall.function.name

/-- Predicate `isWriteToolCall` (demo.sh lines 115–118). -/
def isWriteToolCall (toolCall : ToolCall) : Bool :=
  WRITE_TOOLS.contains toolCall.function.name

/-- Leading constant part of the friendly read-only note (the template
literal in demo.sh line 129, up to the interpolated `writeOperations`). -/
def friendlyMessagePre : String :=
  "I can see you\x27d like me to perform write operations ("

/-- Trailing constant part of the friendly read-only note (demo.sh line
129, after the interpolated `writeOperations`). -/
def friendlyMessagePost : String :=
  "), but I\x27m running in read-only mode via HTTP. I can help you understand your codebase, analyze files, search for patterns, and answer questions, but I cannot modify files or execute commands.\n\nWould you like me to help you explore or analyze your code instead?"

/-- The full friendly message template of demo.sh line 129 as a function of
the interpolated comma-joined write-operation names. -/
def friendlyMessage (writeOperations : String) : String :=
  friendlyMessagePre ++ writeOperations ++ friendlyMessagePost

/-- Function `filterMessageForReadOnly` (demo.sh lines 120–158).  The TS signature
allows returning `null`, but no code path does, so the embedding is total.
The truthiness test `"tool_calls" in item && item.tool_calls` is the
`some` match (an empty array is truthy in JS, so `some []` enters the
branch); `tool_calls: undefined` in the write-only branch is `none`. -/
def filterMessageForReadOnly (item : ChatMessage) : ChatMessage :=
  if item.role = "assistant" then
    match item.tool_calls with
    | some toolCalls =>
      let writeToolCalls := toolCalls.filter isWriteToolCall
      let readToolCalls := toolCalls.filter isReadOnlyToolCall
      if writeToolCalls.length > 0 then
        let writeOperations :=
          String.intercalate ", " (writeToolCalls.map (fun tc => tc.function.name))
        if readToolCalls.length > 0 then
          { item with
              tool_calls := some readToolCalls,
              content := .str ((match item.content with
                  | .str s => s ++ "\n\n"
                  | _ => "") ++ friendlyMessage writeOperations) }
        else
          { item with tool_calls := none, content := .str (friendlyMessage writeOperations) }
      else
        item
    | none => item
  else
    item

/-- Extracts the plain-string content of a message (`""` when the content is
not a plain string); used only to state theorems about filtered output. -/
def contentString : MessageContent → String
  | .str s => s
  | _ => ""

/-- Substring test on character lists, used to state that a piece of text
does **not** occur in a filtered message's content. -/
def listContainsSub (needle : List Char) : List Char → Bool
  | [] => needle == []
  | c :: rest => needle.isPrefixOf (c :: rest) || listContainsSub needle rest

/-! ## Model availability check (`src/utils/model-utils.ts`, lines 5–96) -/

/-- Constant `MODEL_LIST_TIMEOUT_MS` (model-utils.ts line 5). -/
def MODEL_LIST_TIMEOUT_MS : Nat := 2000

/-- Constant `RECOMMENDED_MODELS` (model-utils.ts line 6). -/
def RECOMMENDED_MODELS : List String := ["o4-mini", "o3"]

/-- JavaScript `String.prototype.trim` (used as `model.trim()` in
model-utils.ts lines 71 and 91): strips leading and trailing whitespace.
Defined structurally over the character list so that concrete instances
reduce. -/
def jsTrim (s : String) : String :=
  ⟨((s.data.dropWhile Char.isWhitespace).reverse.dropWhile Char.isWhitespace).reverse⟩

/-- Outcome of the `Promise.race` between `getAvailableModels(config)` and
the `MODEL_LIST_TIMEOUT_MS` timer inside `isModelSupported`
(model-utils.ts lines 78–83): the cache promise resolved first with a model
list, the timer fired first (the race yields `[]`), or the awaited race
rejected (taken by the surrounding `catch`). -/
inductive ModelFetchRace where
  | resolved (models : List String)
  | timedOut
  | failed
deriving DecidableEq, Repr

/-- Function `isModelSupported` (model-utils.ts lines 65–96), with the asynchronous
race reified as a `ModelFetchRace` argument.  `model : Option String`
covers the TS `string | undefined | null` (any non-string is `none`);
`timedOut` makes the race yield `[]`, so the `models.length === 0` test
returns `true`; `failed` is the `catch` branch returning `true`. -/
def isModelSupported (model : Option String) (race : ModelFetchRace) : Bool :=
  match model with
  | none => true
  | some m =>
    if jsTrim m = "" ∨ RECOMMENDED_MODELS.contains m then
      true
    else
      match race with
      | .failed => true
      | .timedOut => true
      | .resolved models =>
        if models.length = 0 then true else models.contains (jsTrim m)

/-! ## Input item builder (`createInputItem`, model-utils.ts lines 128–153) -/

/-- Function `createInputItem` (model-utils.ts lines 128–153).  File reading and
file-type sniffing are reified as the argument functions `readFileBase64`
(the base64 encoding of the file's bytes) and `mimeOf` (the sniffed mime
type after the `?? "application/octet-stream"` fallback).  The local
`content` array accumulates a text part plus one `image_url` part per
image, exactly as in the source — and exactly as in the source the
returned `inputItem` is built from the prompt text alone. -/
def createInputItem (text : String) (images : List String)
    (readFileBase64 : String → String) (mimeOf : String → String) : ChatMessage :=
  let content : List ContentPart :=
    ({ type := "text", text := some text } : ContentPart) ::
      images.map (fun filePath =>
        { type := "image_url",
          image_url := some ("data:" ++ mimeOf filePath ++ ";base64," ++ readFileBase64 filePath) })
  let inputItem : ChatMessage :=
    { role := "user", content := .parts [{ type := "text", text := some text }] }
  let _ := content
  inputItem

/-! ## Vertex AI adapter: message conversion (`vertex-ai-client.ts`, lines 98–112) -/

/-- One Vertex-native content part (only the `text` field is produced by
the conversion in lines 108–111). -/
structure VertexPart where
  text : String
deriving DecidableEq, Repr

/-- One Vertex-native `contents` entry `{ role, parts }`. -/
structure VertexContent where
  role : String
  parts : List VertexPart
deriving DecidableEq, Repr

/-- The per-part mapping of vertex-ai-client.ts line 103:
`c.type === 'text' ? c.text : ''`, with a JS-`undefined` `c.text` rendered
as `""` by `Array.prototype.join`.  (The `typeof c === 'string'` branch is
unreachable under the declared `ChatMessage` content type.) -/
def contentPartToText (c : ContentPart) : String :=
  if c.type = "text" then c.text.getD "" else ""

/-- The content flattening of vertex-ai-client.ts lines 100–104: a string
content passes through, an array is mapped with `contentPartToText` and
joined with `' '`, anything else becomes `''`. -/
def messageContentToText : MessageContent → String
  | .str s => s
  | .parts l => String.intercalate " " (l.map contentPartToText)
  | .nullContent => ""

/-- The message conversion of vertex-ai-client.ts lines 98–112: role
`assistant` maps to `model`, everything else to `user`, and the content is
flattened to a single text part. -/
def convertMessage (msg : ChatMessage) : VertexContent :=
  { role := if msg.role = "assistant" then "model" else "user",
    parts := [{ text := messageContentToText msg.content }] }

/-- Follows the spec's words for the flattening (“concatenating each
part's text with a single-space separator (non-text parts contribute
nothing at this layer)”): only the text parts' texts, single-space
separated. -/
def flattenContentSpec (l : List ContentPart) : String :=
  String.intercalate " " ((l.filter (fun c => c.type = "text")).map (fun c => c.text.getD ""))

/-- The amended flattening: every part contributes — a text part its text,
a non-text part the empty string — and the contributions are joined with a
single space. -/
def flattenContentAmended (l : List ContentPart) : String :=
  String.intercalate " " (l.map (fun c => if c.type = "text" then c.text.getD "" else ""))

/-! ## Vertex AI adapter: stream delivery and abort
(`createStreamAdapter`, vertex-ai-client.ts lines 212–244)

The adapter wraps an object-mode Node `Readable` (`read() {}` is a no-op,
so delivery is purely push-driven).  The relevant Node semantics:

* `readable.push(chunk)` appends the chunk to the internal buffer unless
  the stream has already ended (`push(null)` was called), in which case it
  raises `ERR_STREAM_PUSH_AFTER_EOF`, surfaced as a stream error;
* `readable.push(null)` marks end-of-stream: chunks already buffered are
  still delivered to the consumer before the stream ends;
* the consumer's iteration pops buffered chunks in order.

The pump (lines 222–234) pushes one transformed chunk per upstream chunk
and then pushes `null`; the cancellation handle (lines 237–243) is
`abort: () => readable.push(null)`.  The state machine below embeds one
such stream, generic over the chunk payload type, with an interleaved
event trace of pump pushes, pump end, abort, and consumer reads;
`observed` records the chunks the consumer has received. -/

/-- State of the adapter's object-mode `Readable` together with the list of
chunks the consumer has observed so far. -/
structure AdapterStreamState (α : Type) where
  buffer : List α
  ended : Bool
  errored : Bool
  observed : List α
deriving DecidableEq, Repr

/-- The fresh `Readable` created at the top of `createStreamAdapter`. -/
def initialAdapterStream (α : Type) : AdapterStreamState α :=
  { buffer := [], ended := false, errored := false, observed := [] }

/-- One scheduler event in an execution of the adapter stream. -/
inductive AdapterStreamEvent (α : Type) where
  | pumpPush (c : α)
  | pumpEnd
  | abort
  | consumerRead
deriving DecidableEq, Repr

/-- One step of the adapter stream: `pumpPush` is `readable.push(chunk)`
(buffering, or an `ERR_STREAM_PUSH_AFTER_EOF` error when already ended);
`pumpEnd` and `abort` are both `readable.push(null)`; `consumerRead` pops
the next buffered chunk into `observed` (a read on an empty buffer either
sees end-of-stream or blocks — no state change either way). -/
def adapterStreamStep {α : Type} (s : AdapterStreamState α) :
    AdapterStreamEvent α → AdapterStreamState α
  | .pumpPush c =>
    if s.ended then { s with errored := true } else { s with buffer := s.buffer ++ [c] }
  | .pumpEnd => { s with ended := true }
  | .abort => { s with ended := true }
  | .consumerRead =>
    match s.buffer with
    | c :: rest => { s with buffer := rest, observed := s.observed ++ [c] }
    | [] => s

/-- Runs an event trace from the fresh stream. -/
def runAdapterStream {α : Type} (evs : List (AdapterStreamEvent α)) : AdapterStreamState α :=
  evs.foldl adapterStreamStep (initialAdapterStream α)

/-- The chunks pushed by the pump during a trace, in order. -/
def pushedChunks {α : Type} (evs : List (AdapterStreamEvent α)) : List α :=
  evs.filterMap (fun e => match e with | .pumpPush c => some c | _ => none)

/-! ## Session gateway (`handleChatRequest`, demo.sh server module lines 226–321) -/

/-- One `AgentLoop` instance as the gateway sees it: an identity (so that
reuse is observable) and the approval policy it was constructed with. -/
structure AgentInstance where
  agentId : Nat
  approvalPolicy : String
deriving DecidableEq, Repr

/-- The value thrown by a failing turn; `error instanceof Error` carries a
`message`, anything else maps to `"Unknown error"` (demo.sh line 307). -/
inductive ThrownValue where
  | errorObj (message : String)
  | nonError
deriving DecidableEq, Repr

/-- The expression `error instanceof Error ? error.message : "Unknown error"`
(demo.sh line 307). -/
def errorMessageOf : ThrownValue → String
  | .errorObj m => m
  | .nonError => "Unknown error"

/-- The observable behaviour of `await agent.run([inputItem])` for one
turn: the messages the agent emitted through `onItem` before the turn
completed or failed, and the failure (if any) that `run` raised. -/
structure AgentRunOutcome where
  emitted : List ChatMessage
  failure : Option ThrownValue
deriving DecidableEq, Repr

/-- The gateway's `ChatResponse` shape (demo.sh lines 77–82);
`error := none` models the spread `...(hasError && { error })` omitting
the field. -/
structure ChatResponse where
  sessionId : String
  messages : List ChatMessage
  status : String
  error : Option String
deriving DecidableEq, Repr

/-- The expression `chatRequest.sessionId || randomUUID()` (demo.sh line 238): a missing
or empty (falsy) caller id is replaced by the fresh UUID, any other
caller-supplied string is used as-is. -/
def resolveSessionId (reqSessionId : Option String) (freshUUID : String) : String :=
  match reqSessionId with
  | some s => if s = "" then freshUUID else s
  | none => freshUUID

/-- Builds the gateway's response for one turn (demo.sh lines 312–320).
`messages` is the current request's local `messages` array as it stands
when the response is assembled: the `onItem` callback (lines 274–280) is
bound at `AgentLoop` construction to the **creating** request's array, so
only the request that constructed the agent sees the turn's filtered
emissions there — a request reusing an existing agent assembles its
response from its own, never-written array.  On a caught failure the
status is `"error"` with the human-readable message, else `"completed"`
with no `error` field. -/
def chatResponseFor (sessionId : String) (messages : List ChatMessage)
    (outcome : AgentRunOutcome) : ChatResponse :=
  { sessionId := sessionId
    messages := messages
    status := if outcome.failure.isSome then "error" else "completed"
    error :=
      match outcome.failure with
      | some t => some (errorMessageOf t)
      | none => none }

/-- Function `handleChatRequest` (demo.sh lines 226–321).  The module-level
`activeSessions` map is passed and returned explicitly (an association
list queried with `List.lookup`; insertion conses, which agrees with
`Map.set` because insertion only happens when the id is absent).  The
environment is reified as: `freshUUID` (the `randomUUID()` value),
`freshAgentId` (the identity of the `new AgentLoop(...)` that would be
constructed), and `agentRun` (the outcome of `await agent.run(...)` for a
given agent).  `reqApprovalMode` is the request's `approvalMode` field,
accepted and ignored: the constructed agent's policy is always
`AutoApprovalMode.SUGGEST` (demo.sh lines 240–241) regardless of it.

In the session-creating branch the freshly constructed agent's `onItem`
closes over this request's `messages` array, so the response carries the
turn's filtered emissions (the filter is total, so every emitted item is
pushed).  In the reuse branch the agent's `onItem` still points at the
array of the request that created it: the current request's array is
never written, and the response's `messages` is empty no matter what the
turn emitted. -/
def handleChatRequest
    (activeSessions : List (String × AgentInstance))
    (reqSessionId : Option String) (reqApprovalMode : Option String)
    (freshUUID : String) (freshAgentId : Nat)
    (agentRun : AgentInstance → AgentRunOutcome) :
    List (String × AgentInstance) × ChatResponse :=
  let _ := reqApprovalMode
  let sessionId := resolveSessionId reqSessionId freshUUID
  match activeSessions.lookup sessionId with
  | some agent =>
    (activeSessions, chatResponseFor sessionId [] (agentRun agent))
  | none =>
    let agent : AgentInstance := { agentId := freshAgentId, approvalPolicy := "suggest" }
    ((sessionId, agent) :: activeSessions,
      chatResponseFor sessionId
        ((agentRun agent).emitted.map filterMessageForReadOnly) (agentRun agent))

/-! ## Concrete fixtures used by witnesses and counterexamples -/

/-- A read-capability (`Read`) tool call. -/
def tcRead1 : ToolCall := ⟨"c1", "function", ⟨"Read", "f.txt"⟩⟩

/-- A write-capability (`Bash`) tool call. -/
def tcBash1 : ToolCall := ⟨"c2", "function", ⟨"Bash", "ls"⟩⟩

/-- A tool call whose name is in neither capability set. -/
def tcMystery1 : ToolCall := ⟨"c3", "function", ⟨"MysteryTool", "q"⟩⟩

/-- An assistant message mixing one read and one write call. -/
def mixedMsg : ChatMessage :=
  { role := "assistant", content := .str "hi", tool_calls := some [tcRead1, tcBash1] }

/-- An assistant message with original text and only a write call. -/
def writeOnlyMsg : ChatMessage :=
  { role := "assistant", content := .str "Let me edit that file.", tool_calls := some [tcBash1] }

/-- An assistant message with a write call and a neither-set call. -/
def writeAndMysteryMsg : ChatMessage :=
  { role := "assistant", content := .str "hm", tool_calls := some [tcBash1, tcMystery1] }

/-- A plain assistant message without tool calls. -/
def plainMsg : ChatMessage := { role := "assistant", content := .str "hello" }

/-- An assistant message whose only tool call is in neither capability set. -/
def mysteryOnlyMsg : ChatMessage :=
  { role := "assistant", content := .str "hm", tool_calls := some [tcMystery1] }

/-- A content-part list mixing two text parts around an image part. -/
def mixedPartsList : List ContentPart :=
  [⟨"text", some "a", none⟩, ⟨"image_url", none, none⟩, ⟨"text", some "b", none⟩]

/-- A user message carrying `mixedPartsList` as structured content. -/
def mixedPartsMsg : ChatMessage := { role := "user", content := .parts mixedPartsList }

/-! ## Shared lemmas -/

set_option maxRecDepth 100000

/-- The read- and write-capability sets are disjoint: a read call is never a
write call. -/
theorem readOnly_not_write (tc : ToolCall) (h : isReadOnlyToolCall tc = true) :
    isWriteToolCall tc = false := by
  simp only [isReadOnlyToolCall, READ_ONLY_TOOLS, List.contains_eq_any_beq, List.any_cons,
    List.any_nil, Bool.or_eq_true, beq_iff_eq, Bool.false_eq_true, or_false] at h
  rcases h with h | h | h | h | h | h | h | h <;>
    simp [isWriteToolCall, WRITE_TOOLS, h]

/-- The other direction of disjointness: a write call is never a read call. -/
theorem write_not_readOnly (tc : ToolCall) (h : isWriteToolCall tc = true) :
    isReadOnlyToolCall tc = false := by
  cases hr : isReadOnlyToolCall tc with
  | false => rfl
  | true => rw [readOnly_not_write tc hr] at h; exact absurd h (by simp)

/-- Filtering the read calls out of a list leaves nothing for the write
filter to keep. -/
theorem filter_read_then_write_nil (tcs : List ToolCall) :
    (tcs.filter isReadOnlyToolCall).filter isWriteToolCall = [] := by
  rw [List.filter_filter]
  apply List.filter_eq_nil_iff.mpr
  intro tc _
  cases hr : isReadOnlyToolCall tc with
  | false => simp [hr]
  | true => simp [readOnly_not_write tc hr]

/-- Behaviour of `filterMessageForReadOnly` on a non-assistant message. -/
theorem filter_not_assistant (m : ChatMessage) (h : ¬ m.role = "assistant") :
    filterMessageForReadOnly m = m := by
  simp [filterMessageForReadOnly, h]

/-- Behaviour of `filterMessageForReadOnly` without a `tool_calls` field. -/
theorem filter_no_tool_calls (m : ChatMessage) (h : m.tool_calls = none) :
    filterMessageForReadOnly m = m := by
  unfold filterMessageForReadOnly
  rw [h]
  split <;> rfl

/-- Behaviour of `filterMessageForReadOnly` on a message whose tool calls contain no
write-capability call. -/
theorem filter_no_write (m : ChatMessage) (tcs : List ToolCall)
    (htc : m.tool_calls = some tcs) (hw : tcs.filter isWriteToolCall = []) :
    filterMessageForReadOnly m = m := by
  unfold filterMessageForReadOnly
  rw [htc]
  split
  · simp [hw]
  · rfl

/-- Behaviour of `filterMessageForReadOnly` on an assistant message mixing write- and
read-capability calls. -/
theorem filter_mixed (m : ChatMessage) (tcs : List ToolCall)
    (hrole : m.role = "assistant") (htc : m.tool_calls = some tcs)
    (hw : tcs.filter isWriteToolCall ≠ []) (hr : tcs.filter isReadOnlyToolCall ≠ []) :
    filterMessageForReadOnly m =
      { m with
        tool_calls := some (tcs.filter isReadOnlyToolCall),
        content := .str ((match m.content with | .str s => s ++ "\n\n" | _ => "") ++
          friendlyMessage (String.intercalate ", "
            ((tcs.filter isWriteToolCall).map (fun tc => tc.function.name)))) } := by
  unfold filterMessageForReadOnly
  rw [htc]
  simp [hrole, List.length_pos.mpr hw, List.length_pos.mpr hr]

/-- Behaviour of `filterMessageForReadOnly` on an assistant message with write- but no
read-capability calls. -/
theorem filter_write_only (m : ChatMessage) (tcs : List ToolCall)
    (hrole : m.role = "assistant") (htc : m.tool_calls = some tcs)
    (hw : tcs.filter isWriteToolCall ≠ []) (hr : tcs.filter isReadOnlyToolCall = []) :
    filterMessageForReadOnly m =
      { m with
        tool_calls := none,
        content := .str (friendlyMessage (String.intercalate ", "
          ((tcs.filter isWriteToolCall).map (fun tc => tc.function.name)))) } := by
  unfold filterMessageForReadOnly
  rw [htc]
  simp [hrole, List.length_pos.mpr hw, hr]

/-! ## C2 — mixed read/write message filtering -/

/-- C2: for every assistant message whose tool calls include at least one
read-capability and at least one write-capability call,
`filterMessageForReadOnly` keeps exactly the read-capability calls
(unchanged, in order), keeps no write-capability call, and the filtered
text content contains the stripped write tools' names comma-joined inside
the appended note. -/
theorem mixed_message_filter_correct (m : ChatMessage) (tcs : List ToolCall)
    (hrole : m.role = "assistant") (htc : m.tool_calls = some tcs)
    (hw : tcs.filter isWriteToolCall ≠ []) (hr : tcs.filter isReadOnlyToolCall ≠ []) :
    (filterMessageForReadOnly m).tool_calls = some (tcs.filter isReadOnlyToolCall) ∧
    (∀ tc ∈ tcs, isReadOnlyToolCall tc = true → tc ∈ tcs.filter isReadOnlyToolCall) ∧
    (∀ kept, (filterMessageForReadOnly m).tool_calls = some kept →
      ∀ tc ∈ kept, isWriteToolCall tc = false) ∧
    (∃ s1 s2, contentString (filterMessageForReadOnly m).content =
      s1 ++ String.intercalate ", "
        ((tcs.filter isWriteToolCall).map (fun tc => tc.function.name)) ++ s2) := by
  have hfm := filter_mixed m tcs hrole htc hw hr
  refine ⟨by rw [hfm], ?_, ?_, ?_⟩
  · intro tc hmem hread
    exact List.mem_filter.mpr ⟨hmem, hread⟩
  · intro kept hkept tc hmem
    rw [hfm] at hkept
    simp only [Option.some.injEq] at hkept
    subst hkept
    exact readOnly_not_write tc (List.mem_filter.mp hmem).2
  · refine ⟨(match m.content with | .str s => s ++ "\n\n" | _ => "") ++ friendlyMessagePre,
      friendlyMessagePost, ?_⟩
    rw [hfm]
    simp [contentString, friendlyMessage, String.append_assoc]

/-- C2 witness: the concrete message `mixedMsg` (one `Read`, one `Bash`
call) satisfies the hypotheses and conclusions of
`mixed_message_filter_correct`. -/
theorem mixed_message_filter_correct_witness :
    (mixedMsg.role = "assistant" ∧ mixedMsg.tool_calls = some [tcRead1, tcBash1] ∧
      [tcRead1, tcBash1].filter isWriteToolCall ≠ [] ∧
      [tcRead1, tcBash1].filter isReadOnlyToolCall ≠ []) ∧
    (filterMessageForReadOnly mixedMsg).tool_calls
      = some ([tcRead1, tcBash1].filter isReadOnlyToolCall) ∧
    (∃ s1 s2, contentString (filterMessageForReadOnly mixedMsg).content
      = s1 ++ String.intercalate ", "
          (([tcRead1, tcBash1].filter isWriteToolCall).map (fun tc => tc.function.name)) ++ s2) := by
  have h := mixed_message_filter_correct mixedMsg [tcRead1, tcBash1]
    (by decide) (by decide) (by decide) (by decide)
  exact ⟨⟨by decide, by decide, by decide, by decide⟩, h.1, h.2.2.2⟩

/-! ## C3 — write-only message filtering -/

/-- C3 counterexample: for `writeOnlyMsg` (original text
`"Let me edit that file."`, one `Bash` call) the filter REPLACES the text
content with the fixed note — the original text does not occur anywhere in
the output content, so the output is not “the original text with the note
appended”.  (The `tool_calls` field is indeed cleared.) -/
theorem write_only_claim_counterexample :
    (filterMessageForReadOnly writeOnlyMsg).content = .str (friendlyMessage "Bash") ∧
    (filterMessageForReadOnly writeOnlyMsg).tool_calls = none ∧
    contentString writeOnlyMsg.content = "Let me edit that file." ∧
    listContainsSub "Let me edit that file.".data
      (contentString (filterMessageForReadOnly writeOnlyMsg).content).data = false := by
  decide

/-- C3 amended: for every assistant message whose tool calls are all
write-capability (and nonempty), the filtered message has no `tool_calls`
field and its text content is exactly the fixed explanatory note naming
the blocked tools — the message's original text content is discarded, not
prepended. -/
theorem write_only_filter_correct (m : ChatMessage) (tcs : List ToolCall)
    (hrole : m.role = "assistant") (htc : m.tool_calls = some tcs)
    (hne : tcs ≠ []) (hall : ∀ tc ∈ tcs, isWriteToolCall tc = true) :
    (filterMessageForReadOnly m).tool_calls = none ∧
    (filterMessageForReadOnly m).content =
      .str (friendlyMessage (String.intercalate ", "
        (tcs.map (fun tc => tc.function.name)))) := by
  have hfw : tcs.filter isWriteToolCall = tcs := List.filter_eq_self.mpr hall
  have hw : tcs.filter isWriteToolCall ≠ [] := by rw [hfw]; exact hne
  have hr : tcs.filter isReadOnlyToolCall = [] :=
    List.filter_eq_nil_iff.mpr (fun tc hm => by simp [write_not_readOnly tc (hall tc hm)])
  have hfo := filter_write_only m tcs hrole htc hw hr
  rw [hfo, hfw]
  exact ⟨rfl, rfl⟩

/-- C3 witness: `writeOnlyMsg` satisfies the hypotheses and conclusions of
`write_only_filter_correct`. -/
theorem write_only_filter_correct_witness :
    (writeOnlyMsg.role = "assistant" ∧ writeOnlyMsg.tool_calls = some [tcBash1] ∧
      ([tcBash1] : List ToolCall) ≠ [] ∧ ∀ tc ∈ [tcBash1], isWriteToolCall tc = true) ∧
    (filterMessageForReadOnly writeOnlyMsg).tool_calls = none ∧
    (filterMessageForReadOnly writeOnlyMsg).content =
      .str (friendlyMessage (String.intercalate ", "
        ([tcBash1].map (fun tc => tc.function.name)))) := by
  have h := write_only_filter_correct writeOnlyMsg [tcBash1]
    (by decide) (by decide) (by decide) (by decide)
  exact ⟨⟨by decide, by decide, by decide, by decide⟩, h.1, h.2⟩

/-! ## C8 — idempotence of the capability filter -/

/-- C8: `filterMessageForReadOnly` is idempotent on every message, and
every message with no tool calls (field absent or an empty array,
including any already-filtered message) passes through unchanged. -/
theorem filter_read_only_idempotent (m : ChatMessage) :
    filterMessageForReadOnly (filterMessageForReadOnly m) = filterMessageForReadOnly m ∧
    ((m.tool_calls = none ∨ m.tool_calls = some []) → filterMessageForReadOnly m = m) := by
  constructor
  · by_cases hrole : m.role = "assistant"
    · cases htc : m.tool_calls with
      | none => simp [filter_no_tool_calls m htc]
      | some tcs =>
        by_cases hw : tcs.filter isWriteToolCall = []
        · simp [filter_no_write m tcs htc hw]
        · by_cases hr : tcs.filter isReadOnlyToolCall = []
          · rw [filter_write_only m tcs hrole htc hw hr]
            exact filter_no_tool_calls _ rfl
          · rw [filter_mixed m tcs hrole htc hw hr]
            exact filter_no_write _ (tcs.filter isReadOnlyToolCall) rfl
              (filter_read_then_write_nil tcs)
    · simp [filter_not_assistant m hrole]
  · rintro (htc | htc)
    · exact filter_no_tool_calls m htc
    · exact filter_no_write m [] htc rfl

/-- C8 witness: the concrete tool-call-free message `plainMsg` — the
filter is idempotent on it and passes it through unchanged. -/
theorem filter_read_only_idempotent_witness :
    filterMessageForReadOnly (filterMessageForReadOnly plainMsg) =
      filterMessageForReadOnly plainMsg ∧
    (plainMsg.tool_calls = none ∨ plainMsg.tool_calls = some []) ∧
    filterMessageForReadOnly plainMsg = plainMsg := by
  have h := filter_read_only_idempotent plainMsg
  exact ⟨h.1, Or.inl rfl, h.2 (Or.inl rfl)⟩

/-! ## C10 — neither-set tool calls in the presence of a write call -/

/-- C10: in an assistant message containing at least one write-capability
call, only read-capability calls are kept (the field is cleared when none
remain), so a call whose name is in neither capability set is dropped;
whereas any message whose tool calls contain no write-capability call —
including one holding that same neither-set call — passes through
unchanged. -/
theorem neither_set_tool_dropped (m : ChatMessage) (tcs : List ToolCall)
    (hrole : m.role = "assistant") (htc : m.tool_calls = some tcs)
    (hw : tcs.filter isWriteToolCall ≠ []) :
    ((filterMessageForReadOnly m).tool_calls =
      if tcs.filter isReadOnlyToolCall = [] then none
      else some (tcs.filter isReadOnlyToolCall)) ∧
    (∀ tc ∈ tcs, isReadOnlyToolCall tc = false →
      ∀ kept, (filterMessageForReadOnly m).tool_calls = some kept → tc ∉ kept) ∧
    (∀ m2 (tcs2 : List ToolCall), m2.tool_calls = some tcs2 →
      tcs2.filter isWriteToolCall = [] → filterMessageForReadOnly m2 = m2) := by
  have hmain : (filterMessageForReadOnly m).tool_calls =
      if tcs.filter isReadOnlyToolCall = [] then none
      else some (tcs.filter isReadOnlyToolCall) := by
    by_cases hr : tcs.filter isReadOnlyToolCall = []
    · rw [filter_write_only m tcs hrole htc hw hr]
      simp [hr]
    · rw [filter_mixed m tcs hrole htc hw hr]
      simp [hr]
  refine ⟨hmain, ?_, ?_⟩
  · intro tc _ hnotread kept hkept hin
    rw [hmain] at hkept
    by_cases hr : tcs.filter isReadOnlyToolCall = []
    · rw [if_pos hr] at hkept
      exact Option.noConfusion hkept
    · rw [if_neg hr] at hkept
      simp only [Option.some.injEq] at hkept
      subst hkept
      have := (List.mem_filter.mp hin).2
      rw [hnotread] at this
      exact absurd this (by simp)
  · intro m2 tcs2 htc2 hw2
    exact filter_no_write m2 tcs2 htc2 hw2

/-- C10 witness: in `writeAndMysteryMsg` (a `Bash` call plus a
`MysteryTool` call) the neither-set call is dropped and the `tool_calls`
field is cleared; a message with only the `MysteryTool` call passes
through unchanged. -/
theorem neither_set_tool_dropped_witness :
    (writeAndMysteryMsg.role = "assistant" ∧
      writeAndMysteryMsg.tool_calls = some [tcBash1, tcMystery1] ∧
      [tcBash1, tcMystery1].filter isWriteToolCall ≠ []) ∧
    ((filterMessageForReadOnly writeAndMysteryMsg).tool_calls =
      if [tcBash1, tcMystery1].filter isReadOnlyToolCall = [] then none
      else some ([tcBash1, tcMystery1].filter isReadOnlyToolCall)) ∧
    filterMessageForReadOnly mysteryOnlyMsg = mysteryOnlyMsg := by
  have h := neither_set_tool_dropped writeAndMysteryMsg [tcBash1, tcMystery1]
    (by decide) (by decide) (by decide)
  refine ⟨⟨by decide, by decide, by decide⟩, h.1, ?_⟩
  exact h.2.2 mysteryOnlyMsg [tcMystery1] rfl (by decide)

/-! ## C4 — session creation for absent/unknown session ids -/

/-- C4 counterexample: a chat request carrying an unknown `sessionId`
(`"unknown-session-id"`, not in the empty registry) does NOT get a fresh
identifier: the gateway registers the new agent under the caller-supplied
id and returns that id, not the freshly minted UUID. -/
theorem fresh_session_id_counterexample :
    (handleChatRequest [] (some "unknown-session-id") none "fresh-uuid-1234" 0
      (fun _ => { emitted := [], failure := none })).2.sessionId = "unknown-session-id" ∧
    (handleChatRequest [] (some "unknown-session-id") none "fresh-uuid-1234" 0
      (fun _ => { emitted := [], failure := none })).2.sessionId ≠ "fresh-uuid-1234" ∧
    (List.lookup "unknown-session-id"
      (handleChatRequest [] (some "unknown-session-id") none "fresh-uuid-1234" 0
        (fun _ => { emitted := [], failure := none })).1).isSome = true := by
  decide

/-- C4 amended: when the request's `sessionId` is absent (or empty, which
is falsy in JS), the gateway uses the freshly minted UUID; when a
non-empty `sessionId` is supplied but unknown, the gateway keeps the
caller-supplied identifier itself.  In both cases it creates a new agent
bound to the fixed `"suggest"` (read-only) approval policy regardless of
the request's `approvalMode`, registers it under the resolved identifier,
and returns that identifier in the response. -/
theorem unknown_session_creates_agent
    (sessions : List (String × AgentInstance)) (reqSessionId reqApprovalMode : Option String)
    (freshUUID : String) (freshAgentId : Nat) (agentRun : AgentInstance → AgentRunOutcome)
    (hunknown : sessions.lookup (resolveSessionId reqSessionId freshUUID) = none) :
    (handleChatRequest sessions reqSessionId reqApprovalMode freshUUID freshAgentId
        agentRun).2.sessionId = resolveSessionId reqSessionId freshUUID ∧
    ((reqSessionId = none ∨ reqSessionId = some "") →
      resolveSessionId reqSessionId freshUUID = freshUUID) ∧
    (∀ s, reqSessionId = some s → s ≠ "" → resolveSessionId reqSessionId freshUUID = s) ∧
    List.lookup (resolveSessionId reqSessionId freshUUID)
        (handleChatRequest sessions reqSessionId reqApprovalMode freshUUID freshAgentId
          agentRun).1 =
      some { agentId := freshAgentId, approvalPolicy := "suggest" } := by
  refine ⟨?_, ?_, ?_, ?_⟩
  · simp only [handleChatRequest, hunknown, chatResponseFor]
  · rintro (h | h) <;> subst h <;> simp [resolveSessionId]
  · intro s hs hne
    subst hs
    simp [resolveSessionId, hne]
  · simp only [handleChatRequest, hunknown]
    simp [List.lookup_cons]

/-- C4 witness: against an empty registry, a request with no `sessionId`
gets the fresh UUID and a newly registered `"suggest"`-policy agent. -/
theorem unknown_session_creates_agent_witness :
    (([] : List (String × AgentInstance)).lookup
      (resolveSessionId none "fresh-uuid-1234") = none) ∧
    (handleChatRequest [] none (some "full-auto") "fresh-uuid-1234" 7
        (fun _ => { emitted := [], failure := none })).2.sessionId =
      resolveSessionId none "fresh-uuid-1234" ∧
    resolveSessionId none "fresh-uuid-1234" = "fresh-uuid-1234" ∧
    List.lookup (resolveSessionId none "fresh-uuid-1234")
        (handleChatRequest [] none (some "full-auto") "fresh-uuid-1234" 7
          (fun _ => { emitted := [], failure := none })).1 =
      some { agentId := 7, approvalPolicy := "suggest" } := by
  have h := unknown_session_creates_agent [] none (some "full-auto") "fresh-uuid-1234" 7
    (fun _ => { emitted := [], failure := none }) (by decide)
  exact ⟨by decide, h.1, h.2.1 (Or.inl rfl), h.2.2.2⟩

/-! ## C5 — turn failures do not terminate the session -/

/-- Unfolding of `handleChatRequest` when the resolved id is registered:
the registry is untouched and the response's messages are empty (the
reused agent's `onItem` feeds the creating request's array, not this
one's). -/
theorem handleChatRequest_known
    (sessions : List (String × AgentInstance)) (reqSessionId reqApprovalMode : Option String)
    (freshUUID : String) (freshAgentId : Nat) (agentRun : AgentInstance → AgentRunOutcome)
    (a : AgentInstance)
    (hl : sessions.lookup (resolveSessionId reqSessionId freshUUID) = some a) :
    handleChatRequest sessions reqSessionId reqApprovalMode freshUUID freshAgentId agentRun =
      (sessions, chatResponseFor (resolveSessionId reqSessionId freshUUID) [] (agentRun a)) := by
  simp only [handleChatRequest, hl]

/-- Unfolding of `handleChatRequest` when the resolved id is not
registered: a fresh `"suggest"`-policy agent is consed onto the registry
and this request's response carries the turn's filtered emissions. -/
theorem handleChatRequest_unknown
    (sessions : List (String × AgentInstance)) (reqSessionId reqApprovalMode : Option String)
    (freshUUID : String) (freshAgentId : Nat) (agentRun : AgentInstance → AgentRunOutcome)
    (hl : sessions.lookup (resolveSessionId reqSessionId freshUUID) = none) :
    handleChatRequest sessions reqSessionId reqApprovalMode freshUUID freshAgentId agentRun =
      ((resolveSessionId reqSessionId freshUUID,
          ({ agentId := freshAgentId, approvalPolicy := "suggest" } : AgentInstance)) :: sessions,
        chatResponseFor (resolveSessionId reqSessionId freshUUID)
          ((agentRun { agentId := freshAgentId, approvalPolicy := "suggest" }).emitted.map
            filterMessageForReadOnly)
          (agentRun { agentId := freshAgentId, approvalPolicy := "suggest" })) := by
  simp only [handleChatRequest, hl]

/-- A supplied non-empty session id resolves to itself. -/
theorem resolveSessionId_some_ne (s freshUUID : String) (h : s ≠ "") :
    resolveSessionId (some s) freshUUID = s := by
  simp [resolveSessionId, h]

/-- Looking up the key just consed onto an association list. -/
theorem lookup_cons_self {β : Type} (k : String) (v : β) (l : List (String × β)) :
    List.lookup k ((k, v) :: l) = some v := by
  simp [List.lookup]

/-- C5 counterexample: a request reusing the already-registered session
`"sess-1"` whose turn emits one message and then fails with
`Error("boom")` gets `status = "error"` and the error string, but its
`messages` is empty — not the (filtered) message emitted before the
failure — because `onItem` was bound to the creating request's array. -/
theorem turn_failure_messages_counterexample :
    (handleChatRequest [("sess-1", ⟨3, "suggest"⟩)] (some "sess-1") none "fresh-uuid-9" 4
      (fun _ => { emitted := [plainMsg], failure := some (.errorObj "boom") })).2.status
      = "error" ∧
    (handleChatRequest [("sess-1", ⟨3, "suggest"⟩)] (some "sess-1") none "fresh-uuid-9" 4
      (fun _ => { emitted := [plainMsg], failure := some (.errorObj "boom") })).2.error
      = some "boom" ∧
    (handleChatRequest [("sess-1", ⟨3, "suggest"⟩)] (some "sess-1") none "fresh-uuid-9" 4
      (fun _ => { emitted := [plainMsg], failure := some (.errorObj "boom") })).2.messages
      = [] ∧
    [plainMsg].map filterMessageForReadOnly ≠ [] := by
  decide

/-- C5 amended: when the agent's turn raises a failure (every run of the
chosen agent yields `emitted` items and then the thrown value), the
gateway reports `status = "error"` with a human-readable message, keeps
the resolved id registered, and a later request with the same id reuses
the very same agent (registry unchanged, second response built from that
agent's run, with empty messages since it is a reuse).  The filtered
items emitted before the failure are returned only when this request
itself created the session's agent; a request reusing an existing
session returns an empty `messages` list because `onItem` is bound to
the creating request's array. -/
theorem turn_failure_keeps_session
    (sessions : List (String × AgentInstance)) (reqSessionId reqApprovalMode : Option String)
    (freshUUID : String) (freshAgentId : Nat)
    (emitted : List ChatMessage) (thrown : ThrownValue)
    (agentRun : AgentInstance → AgentRunOutcome)
    (hrun : ∀ a, agentRun a = { emitted := emitted, failure := some thrown })
    (hsid : resolveSessionId reqSessionId freshUUID ≠ "") :
    (handleChatRequest sessions reqSessionId reqApprovalMode freshUUID freshAgentId
        agentRun).2.status = "error" ∧
    (handleChatRequest sessions reqSessionId reqApprovalMode freshUUID freshAgentId
        agentRun).2.error = some (errorMessageOf thrown) ∧
    (sessions.lookup (resolveSessionId reqSessionId freshUUID) = none →
      (handleChatRequest sessions reqSessionId reqApprovalMode freshUUID freshAgentId
        agentRun).2.messages = emitted.map filterMessageForReadOnly) ∧
    (∀ a0, sessions.lookup (resolveSessionId reqSessionId freshUUID) = some a0 →
      (handleChatRequest sessions reqSessionId reqApprovalMode freshUUID freshAgentId
        agentRun).2.messages = []) ∧
    (handleChatRequest sessions reqSessionId reqApprovalMode freshUUID freshAgentId
        agentRun).2.sessionId = resolveSessionId reqSessionId freshUUID ∧
    (∃ a, List.lookup (resolveSessionId reqSessionId freshUUID)
        (handleChatRequest sessions reqSessionId reqApprovalMode freshUUID freshAgentId
          agentRun).1 = some a ∧
      ∀ reqApprovalMode2 freshUUID2 freshAgentId2
          (agentRun2 : AgentInstance → AgentRunOutcome),
        handleChatRequest
          (handleChatRequest sessions reqSessionId reqApprovalMode freshUUID freshAgentId
            agentRun).1
          (some (resolveSessionId reqSessionId freshUUID))
          reqApprovalMode2 freshUUID2 freshAgentId2 agentRun2 =
        ((handleChatRequest sessions reqSessionId reqApprovalMode freshUUID freshAgentId
            agentRun).1,
          chatResponseFor (resolveSessionId reqSessionId freshUUID) [] (agentRun2 a))) := by
  cases hl : sessions.lookup (resolveSessionId reqSessionId freshUUID) with
  | some a =>
    rw [handleChatRequest_known sessions reqSessionId reqApprovalMode freshUUID freshAgentId
      agentRun a hl, hrun a]
    refine ⟨rfl, rfl, ?_, ?_, rfl, a, hl, ?_⟩
    · intro hnone
      exact absurd hnone (by simp)
    · intro a0 _
      rfl
    · intro approv2 f2 aid2 run2
      have hlk : sessions.lookup
          (resolveSessionId (some (resolveSessionId reqSessionId freshUUID)) f2) = some a := by
        rw [resolveSessionId_some_ne _ _ hsid]; exact hl
      rw [handleChatRequest_known sessions _ approv2 f2 aid2 run2 a hlk,
        resolveSessionId_some_ne _ _ hsid]
  | none =>
    rw [handleChatRequest_unknown sessions reqSessionId reqApprovalMode freshUUID freshAgentId
      agentRun hl, hrun { agentId := freshAgentId, approvalPolicy := "suggest" }]
    refine ⟨rfl, rfl, ?_, ?_, rfl, { agentId := freshAgentId, approvalPolicy := "suggest" },
      lookup_cons_self _ _ _, ?_⟩
    · intro _
      rfl
    · intro a0 hsome
      exact absurd hsome (by simp)
    · intro approv2 f2 aid2 run2
      have hlk : List.lookup
          (resolveSessionId (some (resolveSessionId reqSessionId freshUUID)) f2)
          ((resolveSessionId reqSessionId freshUUID,
            ({ agentId := freshAgentId, approvalPolicy := "suggest" } : AgentInstance)) :: sessions) =
          some { agentId := freshAgentId, approvalPolicy := "suggest" } := by
        rw [resolveSessionId_some_ne _ _ hsid]; exact lookup_cons_self _ _ _
      rw [handleChatRequest_known _ _ approv2 f2 aid2 run2 _ hlk,
        resolveSessionId_some_ne _ _ hsid]

/-- C5 witness: with a one-message emission and an `Error("boom")` failure
on a session-creating request, the gateway returns the error response
with the filtered partial messages and keeps the new agent registered. -/
theorem turn_failure_keeps_session_witness :
    ((∀ a : AgentInstance,
        (fun _ : AgentInstance =>
          ({ emitted := [plainMsg], failure := some (.errorObj "boom") } : AgentRunOutcome)) a =
        { emitted := [plainMsg], failure := some (.errorObj "boom") }) ∧
      resolveSessionId (some "sess-1") "fresh-uuid-9" ≠ "") ∧
    (handleChatRequest [] (some "sess-1") none "fresh-uuid-9" 3
      (fun _ => { emitted := [plainMsg], failure := some (.errorObj "boom") })).2.status
      = "error" ∧
    (handleChatRequest [] (some "sess-1") none "fresh-uuid-9" 3
      (fun _ => { emitted := [plainMsg], failure := some (.errorObj "boom") })).2.error
      = some (errorMessageOf (.errorObj "boom")) ∧
    (([] : List (String × AgentInstance)).lookup
        (resolveSessionId (some "sess-1") "fresh-uuid-9") = none ∧
      (handleChatRequest [] (some "sess-1") none "fresh-uuid-9" 3
        (fun _ => { emitted := [plainMsg], failure := some (.errorObj "boom") })).2.messages
        = [plainMsg].map filterMessageForReadOnly) ∧
    (List.lookup (resolveSessionId (some "sess-1") "fresh-uuid-9")
      (handleChatRequest [] (some "sess-1") none "fresh-uuid-9" 3
        (fun _ => { emitted := [plainMsg], failure := some (.errorObj "boom") })).1).isSome
      = true := by
  have h := turn_failure_keeps_session [] (some "sess-1") none "fresh-uuid-9" 3
    [plainMsg] (.errorObj "boom")
    (fun _ => { emitted := [plainMsg], failure := some (.errorObj "boom") })
    (fun _ => rfl) (by decide)
  obtain ⟨h1, h2, hm, _, _, a, ha, _⟩ := h
  exact ⟨⟨fun _ => rfl, by decide⟩, h1, h2, ⟨by decide, hm (by decide)⟩, by rw [ha]; rfl⟩

/-! ## C6 — model support checking -/

/-- C6 counterexample: the membership test runs on the **trimmed** id.
`" gpt-4 "` is outside the allow-list and the resolved non-empty list
`["gpt-4"]` does not contain it, yet `isModelSupported` returns `true`
(because it checks `models.includes(model.trim())`). -/
theorem model_supported_counterexample :
    isModelSupported (some " gpt-4 ") (.resolved ["gpt-4"]) = true ∧
    RECOMMENDED_MODELS.contains " gpt-4 " = false ∧
    jsTrim " gpt-4 " ≠ "" ∧
    (["gpt-4"] : List String) ≠ [] ∧
    (["gpt-4"] : List String).contains " gpt-4 " = false := by
  decide

/-- C6 amended: `isModelSupported` is `true` for an absent id, an id whose
trim is empty, or an allow-listed id (in particular `"o3"`), regardless of
the race outcome; for an id outside the allow-list it is `false` exactly
when the cache resolves within the timeout to a non-empty list not
containing the **trimmed** id, and `true` when the timeout fires first. -/
theorem model_supported_amended :
    (∀ race, isModelSupported none race = true) ∧
    (∀ m race, jsTrim m = "" → isModelSupported (some m) race = true) ∧
    (∀ m race, RECOMMENDED_MODELS.contains m = true → isModelSupported (some m) race = true) ∧
    (∀ race, isModelSupported (some "o3") race = true) ∧
    (∀ m models, RECOMMENDED_MODELS.contains m = false → jsTrim m ≠ "" → models ≠ [] →
      models.contains (jsTrim m) = false →
      isModelSupported (some m) (.resolved models) = false) ∧
    (∀ m, isModelSupported (some m) .timedOut = true) := by
  refine ⟨fun race => rfl, ?_, ?_, ?_, ?_, ?_⟩
  · intro m race h
    simp [isModelSupported, h]
  · intro m race h
    have h2 : m ∈ RECOMMENDED_MODELS := by simpa using h
    simp [isModelSupported, h2]
  · intro race
    cases race <;> simp [isModelSupported, RECOMMENDED_MODELS]
  · intro m models hrec htrim hne hcon
    have hcond : ¬(jsTrim m = "" ∨ RECOMMENDED_MODELS.contains m = true) := by
      rw [hrec]; simp [htrim]
    have hlen : ¬ models.length = 0 := by
      rw [List.length_eq_zero]; exact hne
    simp only [isModelSupported]
    rw [if_neg hcond, if_neg hlen]
    exact hcon
  · intro m
    by_cases h : jsTrim m = "" ∨ RECOMMENDED_MODELS.contains m
    · simp [isModelSupported, h]
    · simp [isModelSupported, h]

/-- C6 witness: concrete instances for each clause — `"o3"` always
supported, `"nonexistent-model-xyz"` rejected by a resolved list not
containing it and accepted on timeout. -/
theorem model_supported_amended_witness :
    isModelSupported (some "o3") (.resolved ["gpt-4"]) = true ∧
    (RECOMMENDED_MODELS.contains "nonexistent-model-xyz" = false ∧
      jsTrim "nonexistent-model-xyz" ≠ "" ∧
      (["gpt-4"] : List String) ≠ [] ∧
      (["gpt-4"] : List String).contains (jsTrim "nonexistent-model-xyz") = false) ∧
    isModelSupported (some "nonexistent-model-xyz") (.resolved ["gpt-4"]) = false ∧
    isModelSupported (some "nonexistent-model-xyz") .timedOut = true ∧
    isModelSupported none (.resolved []) = true ∧
    isModelSupported (some "   ") (.resolved ["gpt-4"]) = true := by
  refine ⟨model_supported_amended.2.2.2.1 (.resolved ["gpt-4"]),
    ⟨by decide, by decide, by decide, by decide⟩,
    model_supported_amended.2.2.2.2.1 "nonexistent-model-xyz" ["gpt-4"]
      (by decide) (by decide) (by decide) (by decide),
    model_supported_amended.2.2.2.2.2 "nonexistent-model-xyz",
    model_supported_amended.1 (.resolved []),
    model_supported_amended.2.1 "   " (.resolved ["gpt-4"]) (by decide)⟩

/-! ## C7 — provider adapter content flattening -/

/-- C7 counterexample: with parts `[text "a", image, text "b"]` the adapter
produces `"a  b"` (the image part contributes an empty string that still
participates in the single-space join), while the spec's flattening —
text parts only, single-space separated — gives `"a b"`. -/
theorem flatten_contribute_nothing_counterexample :
    (convertMessage mixedPartsMsg).parts = [⟨"a  b"⟩] ∧
    flattenContentSpec mixedPartsList = "a b" ∧
    ("a  b" : String) ≠ "a b" := by
  decide

/-- C7 amended: for every message whose content is a list of parts, the
adapter flattens it to the single-space join of per-part contributions,
where a text part contributes its text and a non-text part contributes
the empty string (so non-text parts yield empty segments between
separators); when every part is a text part this agrees with the spec's
flattening. -/
theorem flatten_parts_amended (msg : ChatMessage) (l : List ContentPart)
    (h : msg.content = .parts l) :
    (convertMessage msg).parts = [⟨flattenContentAmended l⟩] ∧
    ((∀ c ∈ l, c.type = "text") → flattenContentAmended l = flattenContentSpec l) := by
  constructor
  · rw [convertMessage, h]
    rfl
  · intro hall
    rw [flattenContentAmended, flattenContentSpec,
      List.filter_eq_self.mpr (fun c hc => by simp [hall c hc])]
    congr 1
    exact List.map_congr_left (fun c hc => by simp [hall c hc])

/-- C7 witness: the mixed text/image part list evaluated through
`flatten_parts_amended`. -/
theorem flatten_parts_amended_witness :
    mixedPartsMsg.content = .parts mixedPartsList ∧
    (convertMessage mixedPartsMsg).parts = [⟨flattenContentAmended mixedPartsList⟩] := by
  exact ⟨rfl, (flatten_parts_amended mixedPartsMsg mixedPartsList rfl).1⟩

/-! ## C9 — image paths never reach the constructed input item -/

/-- C9: `createInputItem` returns a user message whose content is exactly
one text part holding the prompt; the image parts it builds (reading and
base64-encoding each path) are never attached, so the result is identical
whether `images` is empty or not. -/
theorem input_item_ignores_images (text : String) (images : List String)
    (readFileBase64 mimeOf : String → String) :
    createInputItem text images readFileBase64 mimeOf =
      { role := "user", content := .parts [{ type := "text", text := some text }] } ∧
    createInputItem text images readFileBase64 mimeOf =
      createInputItem text [] readFileBase64 mimeOf :=
  ⟨rfl, rfl⟩

/-! ## C1 — stream cancellation semantics -/

/-- Once the adapter stream has ended, no step un-ends it. -/
theorem adapterStep_ended_mono {α : Type} (s : AdapterStreamState α)
    (e : AdapterStreamEvent α) (h : s.ended = true) :
    (adapterStreamStep s e).ended = true := by
  cases e with
  | pumpPush c => simp [adapterStreamStep, h]
  | pumpEnd => rfl
  | abort => rfl
  | consumerRead =>
    cases hb : s.buffer with
    | nil => simpa [adapterStreamStep, hb] using h
    | cons c rest => simpa [adapterStreamStep, hb] using h

/-- Unfolds `pushedChunks` on a leading pump push. -/
theorem pushedChunks_push {α : Type} (c : α) (evs : List (AdapterStreamEvent α)) :
    pushedChunks (.pumpPush c :: evs) = c :: pushedChunks evs := rfl

/-- Shows `pushedChunks` ignores a leading pump end. -/
theorem pushedChunks_pumpEnd {α : Type} (evs : List (AdapterStreamEvent α)) :
    pushedChunks (.pumpEnd :: evs) = pushedChunks evs := rfl

/-- Shows `pushedChunks` ignores a leading abort. -/
theorem pushedChunks_abort {α : Type} (evs : List (AdapterStreamEvent α)) :
    pushedChunks (.abort :: evs) = pushedChunks evs := rfl

/-- Shows `pushedChunks` ignores a leading consumer read. -/
theorem pushedChunks_read {α : Type} (evs : List (AdapterStreamEvent α)) :
    pushedChunks (.consumerRead :: evs) = pushedChunks evs := rfl

/-- Every chunk observed or buffered after running a trace was observed,
buffered, or pushed before. -/
theorem adapterRun_mem_from {α : Type} (evs : List (AdapterStreamEvent α))
    (s : AdapterStreamState α) (c : α)
    (h : c ∈ (evs.foldl adapterStreamStep s).observed ∨
      c ∈ (evs.foldl adapterStreamStep s).buffer) :
    c ∈ s.observed ∨ c ∈ s.buffer ∨ c ∈ pushedChunks evs := by
  induction evs generalizing s with
  | nil =>
    rcases h with h | h
    · exact Or.inl h
    · exact Or.inr (Or.inl h)
  | cons e rest ih =>
    rw [List.foldl_cons] at h
    have step := ih (adapterStreamStep s e) h
    cases e with
    | pumpPush c0 =>
      by_cases hend : s.ended = true
      · simp only [adapterStreamStep, hend, if_pos rfl] at step
        rcases step with h1 | h1 | h1
        · exact Or.inl h1
        · exact Or.inr (Or.inl h1)
        · right; right; rw [pushedChunks_push]; exact List.mem_cons_of_mem c0 h1
      · simp only [adapterStreamStep, hend, if_neg, Bool.not_eq_true] at step
        rcases step with h1 | h1 | h1
        · exact Or.inl h1
        · rcases List.mem_append.mp h1 with h2 | h2
          · exact Or.inr (Or.inl h2)
          · right; right
            simp only [List.mem_singleton] at h2
            subst h2
            rw [pushedChunks_push]
            exact List.mem_cons_self c (pushedChunks rest)
        · right; right; rw [pushedChunks_push]; exact List.mem_cons_of_mem c0 h1
    | pumpEnd =>
      simp only [adapterStreamStep] at step
      rcases step with h1 | h1 | h1
      · exact Or.inl h1
      · exact Or.inr (Or.inl h1)
      · right; right; rw [pushedChunks_pumpEnd]; exact h1
    | abort =>
      simp only [adapterStreamStep] at step
      rcases step with h1 | h1 | h1
      · exact Or.inl h1
      · exact Or.inr (Or.inl h1)
      · right; right; rw [pushedChunks_abort]; exact h1
    | consumerRead =>
      cases hb : s.buffer with
      | nil =>
        simp only [adapterStreamStep, hb] at step
        rcases step with h1 | h1 | h1
        · exact Or.inl h1
        · exact absurd h1 (List.not_mem_nil c)
        · right; right; rw [pushedChunks_read]; exact h1
      | cons c0 rest0 =>
        simp only [adapterStreamStep, hb] at step
        rcases step with h1 | h1 | h1
        · rcases List.mem_append.mp h1 with h2 | h2
          · exact Or.inl h2
          · simp only [List.mem_singleton] at h2
            subst h2
            exact Or.inr (Or.inl (List.mem_cons_self c rest0))
        · exact Or.inr (Or.inl (List.mem_cons_of_mem c0 h1))
        · right; right; rw [pushedChunks_read]; exact h1

/-- After the stream has ended, running further events never adds chunks:
everything observed or buffered afterwards was already observed or
buffered at the moment the stream ended (pump pushes after end-of-stream
only raise the error flag). -/
theorem adapterRun_ended_no_new {α : Type} (evs : List (AdapterStreamEvent α))
    (s : AdapterStreamState α) (c : α) (hend : s.ended = true)
    (h : c ∈ (evs.foldl adapterStreamStep s).observed ∨
      c ∈ (evs.foldl adapterStreamStep s).buffer) :
    c ∈ s.observed ∨ c ∈ s.buffer := by
  induction evs generalizing s with
  | nil =>
    rcases h with h | h
    · exact Or.inl h
    · exact Or.inr h
  | cons e rest ih =>
    rw [List.foldl_cons] at h
    have step := ih (adapterStreamStep s e) (adapterStep_ended_mono s e hend) h
    cases e with
    | pumpPush c0 =>
      simp only [adapterStreamStep, hend, if_pos rfl] at step
      exact step
    | pumpEnd =>
      simp only [adapterStreamStep] at step
      exact step
    | abort =>
      simp only [adapterStreamStep] at step
      exact step
    | consumerRead =>
      cases hb : s.buffer with
      | nil =>
        simp only [adapterStreamStep, hb] at step
        rcases step with h1 | h1
        · exact Or.inl h1
        · exact absurd h1 (List.not_mem_nil c)
      | cons c0 rest0 =>
        simp only [adapterStreamStep, hb] at step
        rcases step with h1 | h1
        · rcases List.mem_append.mp h1 with h2 | h2
          · exact Or.inl h2
          · simp only [List.mem_singleton] at h2
            subst h2
            exact Or.inr (List.mem_cons_self c rest0)
        · exact Or.inr (List.mem_cons_of_mem c0 h1)

/-- C1 counterexample: a concrete schedule refuting the abort contract.
The pump pushes two chunks; the consumer reads one (N = 1); the abort
handle fires (`readable.push(null)`); the consumer nevertheless observes
the already-buffered chunk 2 (chunk N+1), and a later pump push raises a
stream error (`ERR_STREAM_PUSH_AFTER_EOF`), so the stream neither stops
delivery at N chunks nor ends cleanly. -/
theorem abort_contract_counterexample :
    (runAdapterStream [.pumpPush 1, .pumpPush 2, .consumerRead]).observed = [1] ∧
    (runAdapterStream
      [.pumpPush 1, .pumpPush 2, .consumerRead, .abort, .consumerRead,
        .pumpPush (3 : Nat)]).observed = [1, 2] ∧
    (runAdapterStream
      [.pumpPush 1, .pumpPush 2, .consumerRead, .abort, .consumerRead,
        .pumpPush (3 : Nat)]).errored = true := by
  decide

/-- Once ended, the stream stays ended across any further trace. -/
theorem adapterRun_ended_mono {α : Type} (evs : List (AdapterStreamEvent α))
    (s : AdapterStreamState α) (h : s.ended = true) :
    (evs.foldl adapterStreamStep s).ended = true := by
  induction evs generalizing s with
  | nil => exact h
  | cons e rest ih =>
    rw [List.foldl_cons]
    exact ih _ (adapterStep_ended_mono s e h)

/-- C1 amended: invoking the cancellation handle does terminate the
stream — after the abort the stream is permanently marked ended, and no
chunk pushed by the pump after the abort is ever observed by the
consumer (every chunk observed in the whole trace was pushed before the
abort).  However, chunks already buffered at abort time are still
delivered, and a pump push after the abort surfaces as a stream error
rather than a clean end (see the counterexample). -/
theorem abort_terminates_stream {α : Type} (pre post : List (AdapterStreamEvent α)) :
    (runAdapterStream (pre ++ .abort :: post)).ended = true ∧
    ∀ c, c ∈ (runAdapterStream (pre ++ .abort :: post)).observed → c ∈ pushedChunks pre := by
  have hsplit : runAdapterStream (pre ++ .abort :: post) =
      post.foldl adapterStreamStep
        (adapterStreamStep (pre.foldl adapterStreamStep (initialAdapterStream α)) .abort) := by
    rw [runAdapterStream, List.foldl_append, List.foldl_cons]
  have habort : (adapterStreamStep (pre.foldl adapterStreamStep (initialAdapterStream α))
      .abort).ended = true := rfl
  constructor
  · rw [hsplit]
    exact adapterRun_ended_mono post _ habort
  · intro c hc
    rw [hsplit] at hc
    have h1 := adapterRun_ended_no_new post _ c habort (Or.inl hc)
    have h2 : c ∈ (pre.foldl adapterStreamStep (initialAdapterStream α)).observed ∨
        c ∈ (pre.foldl adapterStreamStep (initialAdapterStream α)).buffer := h1
    have h3 := adapterRun_mem_from pre (initialAdapterStream α) c h2
    rcases h3 with h4 | h4 | h4
    · exact absurd h4 (List.not_mem_nil c)
    · exact absurd h4 (List.not_mem_nil c)
    · exact h4

/-- C1 witness: in the trace “push 5, abort, consumer read” the chunk 5 —
buffered before the abort — is observed, and `abort_terminates_stream`
confirms it was pushed before the abort and that the stream is ended. -/
theorem abort_terminates_stream_witness :
    ((5 : Nat) ∈ (runAdapterStream
      [.pumpPush (5 : Nat), .abort, .consumerRead]).observed) ∧
    (runAdapterStream [.pumpPush (5 : Nat), .abort, .consumerRead]).ended = true ∧
    (5 : Nat) ∈ pushedChunks [AdapterStreamEvent.pumpPush (5 : Nat)] := by
  have h := abort_terminates_stream [AdapterStreamEvent.pumpPush (5 : Nat)] [.consumerRead]
  exact ⟨by decide, h.1, h.2 5 (by decide)⟩
